import Mathlib

/-!
A shallow embedding of the `chip8` CHIP-8 interpreter (Rust sources under
`src/chip8/`): machine bytes are `Nat` kept below 256 by explicit wrapping,
16-bit quantities are `Nat`, fallible operations return `Except`.  Each
definition mirrors the Rust item of the same name; the file ends with the
theorems that settle the specification claims.
-/

set_option maxHeartbeats 1000000
set_option maxRecDepth 100000

/-- Source `settings.rs` `Settings`: quirk toggles, fixed at construction. -/
structure Settings where
  assign_shift : Bool
  load_store_increment : Bool
  add_to_index_overflow : Bool
  jump_with_offset_add : Bool

/-- Source `settings.rs` `impl Default for Settings`. -/
def Settings.default : Settings :=
  { assign_shift := false
    load_store_increment := false
    add_to_index_overflow := true
    jump_with_offset_add := false }

/-- Source `keypad.rs` `LastKeyState`. -/
inductive LastKeyState where
  | NotWaiting
  | Waiting
  | Pressed (key : Nat)
deriving DecidableEq

/-- Source `keypad.rs` `Event` (the `Key` payloads are their `u8` codes 0x0–0xF). -/
inductive Event where
  | KeyDown (key : Nat)
  | KeyUp (key : Nat)
  | Stop
deriving DecidableEq

/-- Source `keypad.rs` `Keypad` (the channel receiver is replaced by passing the
drained event list to `process`). -/
structure Keypad where
  has_stopped : Bool
  key_states : Nat → Bool
  last_pressed : LastKeyState

/-- Source `keypad.rs` `Keypad::new`. -/
def Keypad.new : Keypad :=
  { has_stopped := false
    key_states := fun _ => false
    last_pressed := LastKeyState.NotWaiting }

/-- One iteration of the `while let Ok(event) = self.receiver.try_recv()`
loop body in `keypad.rs` `Keypad::process`. -/
def Keypad.processEvent (kp : Keypad) (event : Event) : Keypad :=
  match event with
  | Event.KeyDown key =>
      { kp with key_states := fun i => if i = key then true else kp.key_states i }
  | Event.KeyUp key =>
      { kp with
        key_states := fun i => if i = key then false else kp.key_states i
        last_pressed :=
          match kp.last_pressed with
          | LastKeyState.NotWaiting => LastKeyState.NotWaiting
          | LastKeyState.Waiting => LastKeyState.Pressed key
          | LastKeyState.Pressed _ => LastKeyState.Pressed key }
  | Event.Stop => { kp with has_stopped := true }

/-- Source `keypad.rs` `Keypad::process`: drain the pending events in order. -/
def Keypad.process (kp : Keypad) (events : List Event) : Keypad :=
  events.foldl Keypad.processEvent kp

/-- Source `keypad.rs` `Keypad::is_key_pressed`. -/
def Keypad.is_key_pressed (kp : Keypad) (key_number : Nat) : Bool :=
  kp.key_states key_number

/-- Source `keypad.rs` `Keypad::last_pressed` (the method): returns the consumed
one-shot value together with the updated keypad. -/
def Keypad.lastPressed (kp : Keypad) : Option Nat × Keypad :=
  match kp.last_pressed with
  | LastKeyState.NotWaiting => (none, { kp with last_pressed := LastKeyState.Waiting })
  | LastKeyState.Waiting => (none, { kp with last_pressed := LastKeyState.Waiting })
  | LastKeyState.Pressed key => (some key, { kp with last_pressed := LastKeyState.NotWaiting })

/-- Source `timer.rs` `Timer`. -/
structure Timer where
  value : Nat

/-- Source `timer.rs` `Timer::new`. -/
def Timer.new : Timer := { value := 0 }

/-- Source `timer.rs` `Timer::decrement` (`saturating_sub`, which is `Nat`
subtraction). -/
def Timer.decrement (t : Timer) : Timer := { value := t.value - 1 }

/-- Source `timer.rs` `Timer::set_value`. -/
def Timer.set_value (_ : Timer) (value : Nat) : Timer := { value := value }

/-- Source `timer.rs` `Timer::get_value`. -/
def Timer.get_value (t : Timer) : Nat := t.value

/-- Source `stack.rs` `Stack`: a `Vec<u16>` growing at the end. -/
structure Stack where
  buffer : List Nat

/-- Source `stack.rs` `Stack::new`. -/
def Stack.new : Stack := { buffer := [] }

/-- Source `stack.rs` `Stack::push` (`Vec::push` appends at the end). -/
def Stack.push (s : Stack) (value : Nat) : Stack :=
  { buffer := s.buffer ++ [value] }

/-- Source `stack.rs` `Stack::pop` (`Vec::pop` removes from the end); returns the
popped value with the updated stack. -/
def Stack.pop (s : Stack) : Option (Nat × Stack) :=
  match s.buffer.getLast? with
  | none => none
  | some value => some (value, { buffer := s.buffer.dropLast })

/-- Source `registers.rs` `Registers`: 16 8-bit cells (values kept below 256 by the
callers' wrapping arithmetic). -/
structure Registers where
  registers : Nat → Nat

/-- Source `registers.rs` `Registers::new`. -/
def Registers.new : Registers := { registers := fun _ => 0 }

/-- Source `registers.rs` `Registers::set_value`. -/
def Registers.set_value (r : Registers) (register : Nat) (value : Nat) : Registers :=
  { registers := fun i => if i = register then value else r.registers i }

/-- Source `registers.rs` `Registers::get_value`. -/
def Registers.get_value (r : Registers) (register : Nat) : Nat :=
  r.registers register

/-- Modelled from the spec: `memory.rs` is not under `src/`.  Spec §3/§4.1:
a fixed 4096-byte array; `get_u8`/`set_u8` read and write single bytes and
`get_u16` reads big-endian (the byte at `addr` is the high byte).  The array
is modelled as a total map from addresses to bytes. -/
structure Memory where
  data : Nat → Nat

/-- Modelled from the spec: byte read. -/
def Memory.get_u8 (m : Memory) (address : Nat) : Nat := m.data address

/-- Modelled from the spec: byte write. -/
def Memory.set_u8 (m : Memory) (address value : Nat) : Memory :=
  { data := fun a => if a = address then value else m.data a }

/-- Modelled from the spec: big-endian 16-bit read. -/
def Memory.get_u16 (m : Memory) (address : Nat) : Nat :=
  m.get_u8 address * 256 + m.get_u8 (address + 1)

/-- Modelled from the spec: programs are loaded at 0x200. -/
def PROGRAM_START : Nat := 0x200

/-- Source `display.rs` `Chip8Display`: the 64×32 framebuffer, row-major,
index `x + y * 64` (the outbound change feed is an external effect and is
not part of the state). -/
structure Chip8Display where
  buffer : Nat → Bool

/-- Source `display.rs` `Chip8Display::new`. -/
def Chip8Display.new : Chip8Display := { buffer := fun _ => false }

/-- Source `display.rs` `Chip8Display::set`: XOR-toggles the cell and returns the
prior value together with the updated display. -/
def Chip8Display.set (d : Chip8Display) (x y : Nat) : Chip8Display × Bool :=
  let index := x + y * 64
  let existing := d.buffer index
  ({ buffer := fun i => if i = index then !existing else d.buffer i }, existing)

/-- Source `display.rs` `Chip8Display::clear`. -/
def Chip8Display.clear (_ : Chip8Display) : Chip8Display :=
  { buffer := fun _ => false }

/-- Source `mod.rs` `Instruction`. -/
structure Instruction where
  value : Nat

/-- Source `mod.rs` `Instruction::first`. -/
def Instruction.first (i : Instruction) : Nat := (i.value >>> 12) &&& 0xF

/-- Source `mod.rs` `Instruction::x`. -/
def Instruction.x (i : Instruction) : Nat := (i.value >>> 8) &&& 0xF

/-- Source `mod.rs` `Instruction::y`. -/
def Instruction.y (i : Instruction) : Nat := (i.value >>> 4) &&& 0xF

/-- Source `mod.rs` `Instruction::n`. -/
def Instruction.n (i : Instruction) : Nat := i.value &&& 0xF

/-- Source `mod.rs` `Instruction::nn`. -/
def Instruction.nn (i : Instruction) : Nat := i.value &&& 0xFF

/-- Source `mod.rs` `Instruction::nnn`. -/
def Instruction.nnn (i : Instruction) : Nat := i.value &&& 0xFFF

/-- Source `u8::leading_zeros` for a byte-sized value: 8 minus the bit length,
written as a comparison cascade so it evaluates by reduction. -/
def leadingZeros8 (num : Nat) : Nat :=
  if 0x80 ≤ num then 0
  else if 0x40 ≤ num then 1
  else if 0x20 ≤ num then 2
  else if 0x10 ≤ num then 3
  else if 0x8 ≤ num then 4
  else if 0x4 ≤ num then 5
  else if 0x2 ≤ num then 6
  else if 0x1 ≤ num then 7
  else 8

/-- Source `mod.rs` `impl Iterator for BitIterator`, `next`: the count of leading
zeros if below 8, together with the iterator state with that bit cleared. -/
def bitNext (num : Nat) : Option (Nat × Nat) :=
  let value := leadingZeros8 num
  if value < 8 then some (value, num ^^^ (0x80 >>> value)) else none

/-- Runs `BitIterator` to completion.  A byte has at most 8 set bits and
`next` clears one per step, so fuel 8 (see `BitIterator.toList`) drains it. -/
def bitOffsetsAux : Nat → Nat → List Nat
  | _, 0 => []
  | num, fuel + 1 =>
      match bitNext num with
      | none => []
      | some (value, num') => value :: bitOffsetsAux num' fuel

/-- The list of offsets yielded by `BitIterator { num }`. -/
def BitIterator.toList (num : Nat) : List Nat := bitOffsetsAux num 8

/-- Errors of the interpreter: `mod.rs` has two panics, the
`panic!` in `execute` carrying the unknown instruction's raw word (its
`Display` prints only `self.value`), and the `unwrap` of `Stack::pop` in
`return_subroutine`, which carries nothing. -/
inductive Chip8Error where
  | unknownInstruction (value : Nat)
  | emptyStack
deriving DecidableEq

/-- Source `mod.rs` `Chip8`: the interpreter state.  The `ThreadRng` is modelled
from the spec (§4.7 Random: any byte source suffices) as the next byte to be
produced; channels are external and omitted. -/
structure Chip8 where
  settings : Settings
  memory : Memory
  display : Chip8Display
  stack : Stack
  registers : Registers
  program_counter : Nat
  index_register : Nat
  random_byte : Nat
  keypad : Keypad
  delay_timer : Timer
  sound_timer : Timer

/-- Source `mod.rs` `Chip8::clear_display`. -/
def Chip8.clear_display (c : Chip8) : Chip8 :=
  { c with display := c.display.clear }

/-- Source `mod.rs` `Chip8::set_value`. -/
def Chip8.set_value (c : Chip8) (register_number value : Nat) : Chip8 :=
  { c with registers := c.registers.set_value register_number value }

/-- Source `mod.rs` `Chip8::set_index`. -/
def Chip8.set_index (c : Chip8) (value : Nat) : Chip8 :=
  { c with index_register := value }

/-- The inner `for x_offset in (BitIterator { num: sprite_data })` loop of
`mod.rs` `Chip8::display`, over the remaining offsets: clips at column 64
(`break`), otherwise toggles the pixel and ORs the prior value into the
collision accumulator. -/
def drawRowGo (x_start y : Nat) : List Nat → Chip8Display → Bool → Chip8Display × Bool
  | [], d, flags => (d, flags)
  | x_offset :: rest, d, flags =>
      let x := x_start + x_offset
      if 64 ≤ x then (d, flags)
      else
        let (d', existing) := d.set x y
        drawRowGo x_start y rest d' (flags || existing)

/-- The outer `for row in 0..sprite_height` loop of `mod.rs`
`Chip8::display`, over the remaining row numbers: stops the whole sprite at
row 32 (`break`), otherwise reads the sprite byte at `index + row` and draws
the row. -/
def drawRows (memory : Memory) (index x_start y_start : Nat) :
    List Nat → Chip8Display → Bool → Chip8Display × Bool
  | [], d, flags => (d, flags)
  | row :: rest, d, flags =>
      let y := y_start + row
      if 32 ≤ y then (d, flags)
      else
        let sprite_data := memory.get_u8 (index + row)
        let (d', flags') := drawRowGo x_start y (BitIterator.toList sprite_data) d flags
        drawRows memory index x_start y_start rest d' flags'

/-- Source `mod.rs` `Chip8::display` (the draw instruction; named `displayOp` here
because `display` is the field of the state record). -/
def Chip8.displayOp (c : Chip8) (x_register y_register sprite_height : Nat) : Chip8 :=
  let x_start := c.registers.get_value x_register % 64
  let y_start := c.registers.get_value y_register % 32
  let (d', flags_value) :=
    drawRows c.memory c.index_register x_start y_start
      (List.range sprite_height) c.display false
  { c with
    display := d'
    registers := c.registers.set_value 0xF (if flags_value then 1 else 0) }

/-- Source `mod.rs` `Chip8::jump`. -/
def Chip8.jump (c : Chip8) (address : Nat) : Chip8 :=
  { c with program_counter := address }

/-- Source `mod.rs` `Chip8::add_value` (`wrapping_add`). -/
def Chip8.add_value (c : Chip8) (register_number value : Nat) : Chip8 :=
  let existing := c.registers.get_value register_number
  let new := (existing + value) % 256
  { c with registers := c.registers.set_value register_number new }

/-- Source `mod.rs` `Chip8::skip_if_equals_value`. -/
def Chip8.skip_if_equals_value (c : Chip8) (register_number value : Nat) : Chip8 :=
  if c.registers.get_value register_number = value
  then { c with program_counter := c.program_counter + 2 }
  else c

/-- Source `mod.rs` `Chip8::skip_if_not_equals_value`. -/
def Chip8.skip_if_not_equals_value (c : Chip8) (register_number value : Nat) : Chip8 :=
  if c.registers.get_value register_number ≠ value
  then { c with program_counter := c.program_counter + 2 }
  else c

/-- Source `mod.rs` `Chip8::skip_if_equals_register`. -/
def Chip8.skip_if_equals_register (c : Chip8) (register_number_x register_number_y : Nat) : Chip8 :=
  if c.registers.get_value register_number_x = c.registers.get_value register_number_y
  then { c with program_counter := c.program_counter + 2 }
  else c

/-- Source `mod.rs` `Chip8::skip_if_not_equals_register`. -/
def Chip8.skip_if_not_equals_register (c : Chip8) (register_number_x register_number_y : Nat) : Chip8 :=
  if c.registers.get_value register_number_x ≠ c.registers.get_value register_number_y
  then { c with program_counter := c.program_counter + 2 }
  else c

/-- Source `mod.rs` `Chip8::call_subroutine`. -/
def Chip8.call_subroutine (c : Chip8) (address : Nat) : Chip8 :=
  { c with stack := c.stack.push c.program_counter, program_counter := address }

/-- Source `mod.rs` `Chip8::return_subroutine` (`self.stack.pop().unwrap()`; the
`unwrap` of `None` is the empty-stack panic). -/
def Chip8.return_subroutine (c : Chip8) : Except Chip8Error Chip8 :=
  match c.stack.pop with
  | none => Except.error Chip8Error.emptyStack
  | some (address, stack') =>
      Except.ok { c with program_counter := address, stack := stack' }

/-- Source `mod.rs` `Chip8::set_register`. -/
def Chip8.set_register (c : Chip8) (register_number_x register_number_y : Nat) : Chip8 :=
  { c with registers :=
      c.registers.set_value register_number_x (c.registers.get_value register_number_y) }

/-- Source `mod.rs` `Chip8::or_register`. -/
def Chip8.or_register (c : Chip8) (register_number_x register_number_y : Nat) : Chip8 :=
  let value := c.registers.get_value register_number_x |||
    c.registers.get_value register_number_y
  { c with registers := c.registers.set_value register_number_x value }

/-- Source `mod.rs` `Chip8::and_register`. -/
def Chip8.and_register (c : Chip8) (register_number_x register_number_y : Nat) : Chip8 :=
  let value := c.registers.get_value register_number_x &&&
    c.registers.get_value register_number_y
  { c with registers := c.registers.set_value register_number_x value }

/-- Source `mod.rs` `Chip8::xor_register`. -/
def Chip8.xor_register (c : Chip8) (register_number_x register_number_y : Nat) : Chip8 :=
  let value := c.registers.get_value register_number_x ^^^
    c.registers.get_value register_number_y
  { c with registers := c.registers.set_value register_number_x value }

/-- Source `mod.rs` `Chip8::add_register` (`overflowing_add` on `u8`: the wrapped
sum together with the overflow bit, written to register 0xF after the sum). -/
def Chip8.add_register (c : Chip8) (register_number_x register_number_y : Nat) : Chip8 :=
  let x_value := c.registers.get_value register_number_x
  let y_value := c.registers.get_value register_number_y
  let value := (x_value + y_value) % 256
  let overflowed := decide (256 ≤ x_value + y_value)
  { c with registers :=
      (c.registers.set_value register_number_x value).set_value 0xF overflowed.toNat }

/-- Source `mod.rs` `Chip8::sub_register_xy` (`overflowing_sub` on `u8`: the
wrapped difference and the underflow bit; register 0xF receives the
*negation* of the underflow bit). -/
def Chip8.sub_register_xy (c : Chip8) (register_number_x register_number_y : Nat) : Chip8 :=
  let x_value := c.registers.get_value register_number_x
  let y_value := c.registers.get_value register_number_y
  let value := (x_value + 256 - y_value) % 256
  let overflowed := decide (x_value < y_value)
  { c with registers :=
      (c.registers.set_value register_number_x value).set_value 0xF (!overflowed).toNat }

/-- Source `mod.rs` `Chip8::sub_register_yx`. -/
def Chip8.sub_register_yx (c : Chip8) (register_number_x register_number_y : Nat) : Chip8 :=
  let x_value := c.registers.get_value register_number_x
  let y_value := c.registers.get_value register_number_y
  let value := (y_value + 256 - x_value) % 256
  let overflowed := decide (y_value < x_value)
  { c with registers :=
      (c.registers.set_value register_number_x value).set_value 0xF (!overflowed).toNat }

/-- Source `mod.rs` `Chip8::shift_right`. -/
def Chip8.shift_right (c : Chip8) (register_number_x register_number_y : Nat) : Chip8 :=
  let c :=
    if c.settings.assign_shift then
      { c with registers :=
          c.registers.set_value register_number_x (c.registers.get_value register_number_y) }
    else c
  let x_value := c.registers.get_value register_number_x
  let flags_value := decide (x_value &&& 0x1 ≠ 0)
  let shifted := x_value >>> 1
  { c with registers :=
      (c.registers.set_value register_number_x shifted).set_value 0xF flags_value.toNat }

/-- Source `mod.rs` `Chip8::shift_left` (`u8` shift left keeps the low 8 bits). -/
def Chip8.shift_left (c : Chip8) (register_number_x register_number_y : Nat) : Chip8 :=
  let c :=
    if c.settings.assign_shift then
      { c with registers :=
          c.registers.set_value register_number_x (c.registers.get_value register_number_y) }
    else c
  let x_value := c.registers.get_value register_number_x
  let flags_value := decide (x_value &&& 0x80 ≠ 0)
  let shifted := (x_value <<< 1) % 256
  { c with registers :=
      (c.registers.set_value register_number_x shifted).set_value 0xF flags_value.toNat }

/-- Source `mod.rs` `Chip8::store_registers`: `for register in 0..=register_number`
writes register `r` to `index + r`, then the optional quirk increment. -/
def Chip8.store_registers (c : Chip8) (register_number : Nat) : Chip8 :=
  let memory' :=
    (List.range (register_number + 1)).foldl
      (fun m register => m.set_u8 (c.index_register + register) (c.registers.get_value register))
      c.memory
  let c := { c with memory := memory' }
  if c.settings.load_store_increment
  then { c with index_register := c.index_register + register_number + 1 }
  else c

/-- Source `mod.rs` `Chip8::load_registers`. -/
def Chip8.load_registers (c : Chip8) (register_number : Nat) : Chip8 :=
  let registers' :=
    (List.range (register_number + 1)).foldl
      (fun r register => r.set_value register (c.memory.get_u8 (c.index_register + register)))
      c.registers
  let c := { c with registers := registers' }
  if c.settings.load_store_increment
  then { c with index_register := c.index_register + register_number + 1 }
  else c

/-- Source `mod.rs` `Chip8::binary_coded_decimal`. -/
def Chip8.binary_coded_decimal (c : Chip8) (register_number : Nat) : Chip8 :=
  let x_value := c.registers.get_value register_number
  let memory' :=
    ((c.memory.set_u8 c.index_register (x_value / 100)).set_u8
      (c.index_register + 1) (x_value / 10 % 10)).set_u8
      (c.index_register + 2) (x_value % 10)
  { c with memory := memory' }

/-- Source `mod.rs` `Chip8::add_to_index`. -/
def Chip8.add_to_index (c : Chip8) (register_number : Nat) : Chip8 :=
  let x_value := c.registers.get_value register_number
  let c := { c with index_register := c.index_register + x_value }
  if c.settings.add_to_index_overflow then
    let overflowed := decide (0x0FFF < c.index_register)
    { c with registers := c.registers.set_value 0xF overflowed.toNat }
  else c

/-- Source `mod.rs` `Chip8::random` (`self.rng.gen()` modelled as the state's
`random_byte`). -/
def Chip8.random (c : Chip8) (register_number mask : Nat) : Chip8 :=
  let result := c.random_byte &&& mask
  { c with registers := c.registers.set_value register_number result }

/-- Source `mod.rs` `Chip8::get_delay_timer_value`. -/
def Chip8.get_delay_timer_value (c : Chip8) (register_number : Nat) : Chip8 :=
  { c with registers := c.registers.set_value register_number c.delay_timer.get_value }

/-- Source `mod.rs` `Chip8::set_delay_timer_value`. -/
def Chip8.set_delay_timer_value (c : Chip8) (register_number : Nat) : Chip8 :=
  { c with delay_timer := c.delay_timer.set_value (c.registers.get_value register_number) }

/-- Source `mod.rs` `Chip8::set_sound_timer_value`. -/
def Chip8.set_sound_timer_value (c : Chip8) (register_number : Nat) : Chip8 :=
  { c with sound_timer := c.sound_timer.set_value (c.registers.get_value register_number) }

/-- Source `mod.rs` `Chip8::skip_if_key_pressed`. -/
def Chip8.skip_if_key_pressed (c : Chip8) (register_number : Nat) : Chip8 :=
  if c.keypad.is_key_pressed (c.registers.get_value register_number)
  then { c with program_counter := c.program_counter + 2 }
  else c

/-- Source `mod.rs` `Chip8::skip_if_key_not_pressed`. -/
def Chip8.skip_if_key_not_pressed (c : Chip8) (register_number : Nat) : Chip8 :=
  if !c.keypad.is_key_pressed (c.registers.get_value register_number)
  then { c with program_counter := c.program_counter + 2 }
  else c

/-- Source `mod.rs` `Chip8::get_key`: consume the keypad's one-shot released key if
present, else rewind the program counter by 2. -/
def Chip8.get_key (c : Chip8) (register_number : Nat) : Chip8 :=
  match c.keypad.lastPressed with
  | (some key, keypad') =>
      { c with keypad := keypad', registers := c.registers.set_value register_number key }
  | (none, keypad') =>
      { c with keypad := keypad', program_counter := c.program_counter - 2 }

/-- Source `mod.rs` `Chip8::jump_with_offset`. -/
def Chip8.jump_with_offset (c : Chip8) (address register_number : Nat) : Chip8 :=
  let address :=
    if c.settings.jump_with_offset_add
    then address + c.registers.get_value register_number
    else address + c.registers.get_value 0
  { c with program_counter := address }

/-- Source `mod.rs` `Chip8::execute`: the dispatch `match`, arm for arm; the final
`panic!` is the `unknownInstruction` error. -/
def Chip8.execute (c : Chip8) (instruction : Instruction) : Except Chip8Error Chip8 :=
  if instruction.first = 0x0 ∧ instruction.nnn = 0x0E0 then Except.ok c.clear_display
  else if instruction.first = 0x6 then Except.ok (c.set_value instruction.x instruction.nn)
  else if instruction.first = 0xA then Except.ok (c.set_index instruction.nnn)
  else if instruction.first = 0xD then
    Except.ok (c.displayOp instruction.x instruction.y instruction.n)
  else if instruction.first = 0x1 then Except.ok (c.jump instruction.nnn)
  else if instruction.first = 0x7 then Except.ok (c.add_value instruction.x instruction.nn)
  else if instruction.first = 0x3 then
    Except.ok (c.skip_if_equals_value instruction.x instruction.nn)
  else if instruction.first = 0x4 then
    Except.ok (c.skip_if_not_equals_value instruction.x instruction.nn)
  else if instruction.first = 0x5 then
    Except.ok (c.skip_if_equals_register instruction.x instruction.y)
  else if instruction.first = 0x9 then
    Except.ok (c.skip_if_not_equals_register instruction.x instruction.y)
  else if instruction.first = 0x2 then Except.ok (c.call_subroutine instruction.nnn)
  else if instruction.first = 0x0 ∧ instruction.nnn = 0x0EE then c.return_subroutine
  else if instruction.first = 0x8 ∧ instruction.n = 0x0 then
    Except.ok (c.set_register instruction.x instruction.y)
  else if instruction.first = 0x8 ∧ instruction.n = 0x1 then
    Except.ok (c.or_register instruction.x instruction.y)
  else if instruction.first = 0x8 ∧ instruction.n = 0x2 then
    Except.ok (c.and_register instruction.x instruction.y)
  else if instruction.first = 0x8 ∧ instruction.n = 0x3 then
    Except.ok (c.xor_register instruction.x instruction.y)
  else if instruction.first = 0x8 ∧ instruction.n = 0x4 then
    Except.ok (c.add_register instruction.x instruction.y)
  else if instruction.first = 0x8 ∧ instruction.n = 0x5 then
    Except.ok (c.sub_register_xy instruction.x instruction.y)
  else if instruction.first = 0x8 ∧ instruction.n = 0x7 then
    Except.ok (c.sub_register_yx instruction.x instruction.y)
  else if instruction.first = 0x8 ∧ instruction.n = 0x6 then
    Except.ok (c.shift_right instruction.x instruction.y)
  else if instruction.first = 0x8 ∧ instruction.n = 0xE then
    Except.ok (c.shift_left instruction.x instruction.y)
  else if instruction.first = 0xF ∧ instruction.nn = 0x55 then
    Except.ok (c.store_registers instruction.x)
  else if instruction.first = 0xF ∧ instruction.nn = 0x65 then
    Except.ok (c.load_registers instruction.x)
  else if instruction.first = 0xF ∧ instruction.nn = 0x33 then
    Except.ok (c.binary_coded_decimal instruction.x)
  else if instruction.first = 0xF ∧ instruction.nn = 0x1E then
    Except.ok (c.add_to_index instruction.x)
  else if instruction.first = 0xC then Except.ok (c.random instruction.x instruction.nn)
  else if instruction.first = 0xF ∧ instruction.nn = 0x07 then
    Except.ok (c.get_delay_timer_value instruction.x)
  else if instruction.first = 0xF ∧ instruction.nn = 0x15 then
    Except.ok (c.set_delay_timer_value instruction.x)
  else if instruction.first = 0xF ∧ instruction.nn = 0x18 then
    Except.ok (c.set_sound_timer_value instruction.x)
  else if instruction.first = 0xE ∧ instruction.nn = 0x9E then
    Except.ok (c.skip_if_key_pressed instruction.x)
  else if instruction.first = 0xE ∧ instruction.nn = 0xA1 then
    Except.ok (c.skip_if_key_not_pressed instruction.x)
  else if instruction.first = 0xF ∧ instruction.nn = 0x0A then
    Except.ok (c.get_key instruction.x)
  else if instruction.first = 0xB then
    Except.ok (c.jump_with_offset instruction.nnn instruction.x)
  else Except.error (Chip8Error.unknownInstruction instruction.value)

/-- Source `mod.rs` `Chip8::fetch`: read the word at the program counter, advance
the program counter by 2. -/
def Chip8.fetch (c : Chip8) : Instruction × Chip8 :=
  (Instruction.mk (c.memory.get_u16 c.program_counter),
   { c with program_counter := c.program_counter + 2 })

/-- One fetch–execute step of `mod.rs` `Chip8::run` (timer pacing and event
draining aside). -/
def Chip8.step (c : Chip8) : Except Chip8Error Chip8 :=
  let (instruction, c') := c.fetch
  c'.execute instruction

/-! Spec-side definitions used by the claim statements. -/

/-- The encodings `Chip8::execute` recognizes: one disjunct per dispatch
arm, in the source's order. -/
def recognized (i : Instruction) : Prop :=
  (i.first = 0x0 ∧ i.nnn = 0x0E0) ∨ i.first = 0x6 ∨ i.first = 0xA ∨ i.first = 0xD ∨
  i.first = 0x1 ∨ i.first = 0x7 ∨ i.first = 0x3 ∨ i.first = 0x4 ∨ i.first = 0x5 ∨
  i.first = 0x9 ∨ i.first = 0x2 ∨ (i.first = 0x0 ∧ i.nnn = 0x0EE) ∨
  (i.first = 0x8 ∧ i.n = 0x0) ∨ (i.first = 0x8 ∧ i.n = 0x1) ∨ (i.first = 0x8 ∧ i.n = 0x2) ∨
  (i.first = 0x8 ∧ i.n = 0x3) ∨ (i.first = 0x8 ∧ i.n = 0x4) ∨ (i.first = 0x8 ∧ i.n = 0x5) ∨
  (i.first = 0x8 ∧ i.n = 0x7) ∨ (i.first = 0x8 ∧ i.n = 0x6) ∨ (i.first = 0x8 ∧ i.n = 0xE) ∨
  (i.first = 0xF ∧ i.nn = 0x55) ∨ (i.first = 0xF ∧ i.nn = 0x65) ∨
  (i.first = 0xF ∧ i.nn = 0x33) ∨ (i.first = 0xF ∧ i.nn = 0x1E) ∨ i.first = 0xC ∨
  (i.first = 0xF ∧ i.nn = 0x07) ∨ (i.first = 0xF ∧ i.nn = 0x15) ∨
  (i.first = 0xF ∧ i.nn = 0x18) ∨ (i.first = 0xE ∧ i.nn = 0x9E) ∨
  (i.first = 0xE ∧ i.nn = 0xA1) ∨ (i.first = 0xF ∧ i.nn = 0x0A) ∨ i.first = 0xB

instance recognizedDecidable (i : Instruction) : Decidable (recognized i) := by
  unfold recognized
  infer_instance

/-- The value register X holds after the optional assign-before-shift step
of `shift_right`/`shift_left`: register Y's value under the quirk, else
register X's own value. -/
def shiftSource (c : Chip8) (x y : Nat) : Nat :=
  if c.settings.assign_shift then c.registers.get_value y else c.registers.get_value x

/-- The sprite pixels a `0xDXYN` draw plots (before clipping): pixel
`(x, y)` belongs to sprite row `row < sprite_height` (read from memory at
`index + row`) and bit `7 - off` of that byte, placed at
`(x_start + off, y_start + row)`. -/
def spritePixel (memory : Memory) (index x_start y_start sprite_height x y : Nat) : Bool :=
  (List.range sprite_height).any fun row =>
    (List.range 8).any fun off =>
      decide (y = y_start + row) && decide (x = x_start + off) &&
        (memory.get_u8 (index + row)).testBit (7 - off)

/-- Which framebuffer indices one sprite row toggles. -/
def rowToggle (x_start y : Nat) (offs : List Nat) (i : Nat) : Bool :=
  offs.any fun off => decide (x_start + off < 64) && decide (i = x_start + off + y * 64)

/-- Whether one sprite row hits an already-set pixel of `d`. -/
def rowCollide (x_start y : Nat) (offs : List Nat) (d : Chip8Display) : Bool :=
  offs.any fun off => decide (x_start + off < 64) && d.buffer (x_start + off + y * 64)

/-- Which framebuffer indices a whole draw toggles. -/
def rowsToggle (memory : Memory) (index x_start y_start : Nat) (rows : List Nat) (i : Nat) : Bool :=
  rows.any fun row => decide (y_start + row < 32) &&
    rowToggle x_start (y_start + row) (BitIterator.toList (memory.get_u8 (index + row))) i

/-- Whether a whole draw hits an already-set pixel of `d`. -/
def rowsCollide (memory : Memory) (index x_start y_start : Nat) (rows : List Nat)
    (d : Chip8Display) : Bool :=
  rows.any fun row => decide (y_start + row < 32) &&
    rowCollide x_start (y_start + row) (BitIterator.toList (memory.get_u8 (index + row))) d

/-- Zero registers `0..=x`, keeping the rest (the round-trip scenario's
intermediate state). -/
def Registers.zeroThrough (r : Registers) (x : Nat) : Registers :=
  { registers := fun i => if i ≤ x then 0 else r.registers i }

/-- A freshly constructed interpreter (`Chip8::new` with an empty program
image and default quirks). -/
def initChip8 : Chip8 :=
  { settings := Settings.default
    memory := { data := fun _ => 0 }
    display := Chip8Display.new
    stack := Stack.new
    registers := Registers.new
    program_counter := PROGRAM_START
    index_register := 0
    random_byte := 0
    keypad := Keypad.new
    delay_timer := Timer.new
    sound_timer := Timer.new }

/-- All quirk toggles enabled. -/
def quirkSettings : Settings :=
  { assign_shift := true
    load_store_increment := true
    add_to_index_overflow := true
    jump_with_offset_add := true }

/-- A fresh interpreter with every quirk enabled. -/
def quirkChip8 : Chip8 := { initChip8 with settings := quirkSettings }

/-- A program image holding the single instruction `0xF50A` (key-wait into
register 5) at the load address. -/
def keyWaitMemory : Memory :=
  { data := fun a => if a = 0x200 then 0xF5 else if a = 0x201 then 0x0A else 0 }

/-- An interpreter about to execute `0xF50A` while key 7's release is
pending. -/
def keyWaitChip8 : Chip8 :=
  { initChip8 with
    memory := keyWaitMemory
    keypad := { Keypad.new with last_pressed := LastKeyState.Pressed 7 } }

/-- An interpreter with a one-row sprite `0x80` at 0x300, the index register
pointing at it, and one framebuffer pixel already lit. -/
def drawChip8 : Chip8 :=
  { initChip8 with
    memory := { data := fun a => if a = 0x300 then 0x80 else 0 }
    index_register := 0x300
    display := { buffer := fun j => decide (j = 0) } }

/-- An interpreter with register 3 holding 44 and the index register at
0x300 (the store/load round-trip scenario). -/
def roundChip8 : Chip8 :=
  ({ initChip8 with index_register := 0x300 } : Chip8).set_value 0x3 44

/-! Dispatch lemmas: which arm of `Chip8::execute` a given encoding takes. -/

theorem execute_add_value (c : Chip8) (i : Instruction) (h1 : i.first = 0x7) :
    c.execute i = Except.ok (c.add_value i.x i.nn) := by
  simp [Chip8.execute, h1]

theorem execute_add_register (c : Chip8) (i : Instruction) (h1 : i.first = 0x8)
    (h2 : i.n = 0x4) : c.execute i = Except.ok (c.add_register i.x i.y) := by
  simp [Chip8.execute, h1, h2]

theorem execute_sub_register_xy (c : Chip8) (i : Instruction) (h1 : i.first = 0x8)
    (h2 : i.n = 0x5) : c.execute i = Except.ok (c.sub_register_xy i.x i.y) := by
  simp [Chip8.execute, h1, h2]

theorem execute_shift_right (c : Chip8) (i : Instruction) (h1 : i.first = 0x8)
    (h2 : i.n = 0x6) : c.execute i = Except.ok (c.shift_right i.x i.y) := by
  simp [Chip8.execute, h1, h2]

theorem execute_shift_left (c : Chip8) (i : Instruction) (h1 : i.first = 0x8)
    (h2 : i.n = 0xE) : c.execute i = Except.ok (c.shift_left i.x i.y) := by
  simp [Chip8.execute, h1, h2]

theorem execute_display (c : Chip8) (i : Instruction) (h1 : i.first = 0xD) :
    c.execute i = Except.ok (c.displayOp i.x i.y i.n) := by
  simp [Chip8.execute, h1]

theorem execute_return (c : Chip8) (i : Instruction) (h1 : i.first = 0x0)
    (h2 : i.nnn = 0x0EE) : c.execute i = c.return_subroutine := by
  simp [Chip8.execute, h1, h2]

theorem execute_store_registers (c : Chip8) (i : Instruction) (h1 : i.first = 0xF)
    (h2 : i.nn = 0x55) : c.execute i = Except.ok (c.store_registers i.x) := by
  simp [Chip8.execute, h1, h2]

theorem execute_load_registers (c : Chip8) (i : Instruction) (h1 : i.first = 0xF)
    (h2 : i.nn = 0x65) : c.execute i = Except.ok (c.load_registers i.x) := by
  simp [Chip8.execute, h1, h2]

theorem execute_get_key (c : Chip8) (i : Instruction) (h1 : i.first = 0xF)
    (h2 : i.nn = 0x0A) : c.execute i = Except.ok (c.get_key i.x) := by
  simp [Chip8.execute, h1, h2]

/-! Small register/bit helper lemmas. -/

theorem get_value_set_same (r : Registers) (k v : Nat) :
    (r.set_value k v).get_value k = v := by
  simp [Registers.set_value, Registers.get_value]

theorem get_value_set_other (r : Registers) (k v j : Nat) (h : j ≠ k) :
    (r.set_value k v).get_value j = r.get_value j := by
  simp [Registers.set_value, Registers.get_value, h]

theorem decide_and_two_pow (x k : Nat) : decide (x &&& 2 ^ k ≠ 0) = x.testBit k := by
  rw [Nat.and_two_pow]
  cases h : x.testBit k <;> simp [h]

theorem decide_and_one (x : Nat) : (!decide (x &&& 1 = 0)) = x.testBit 0 := by
  rcases Nat.mod_two_eq_zero_or_one x with h | h <;> simp [Nat.and_one_is_mod, h]

theorem decide_and_128 (x : Nat) : (!decide (x &&& 128 = 0)) = x.testBit 7 := by
  have h := decide_and_two_pow x 7
  simpa using h

theorem toNat_decide_eq_ite {p q : Prop} [Decidable p] [Decidable q] (h : p ↔ q) :
    (decide p).toNat = if q then 1 else 0 := by
  by_cases hq : q <;> simp [h, hq]

theorem toNat_not_decide_eq_ite {p q : Prop} [Decidable p] [Decidable q] (h : ¬p ↔ q) :
    (!decide p).toNat = if q then 1 else 0 := by
  by_cases hp : p
  · rw [if_neg (fun hq => h.mpr hq hp)]
    simp [hp]
  · rw [if_pos (h.mp hp)]
    simp [hp]

/-- C1: for 8-bit register values `a` in register X and `b` in register Y
(X ≠ 15 — see `C1_counterexample` for X = 15), `0x8XY4` stores
`(a + b) % 256` in register X and sets register 15 to 1 iff `a + b > 255`,
and `0x8XY5` stores `(a - b) mod 256` in register X and sets register 15 to
1 iff `a ≥ b` (no borrow). -/
theorem C1_arith_flags (c : Chip8) (i : Instruction)
    (hf : i.first = 0x8) (hx : i.x ≠ 0xF)
    (ha : c.registers.get_value i.x < 256) (hb : c.registers.get_value i.y < 256) :
    (i.n = 0x4 →
      (c.execute i).toOption.map (fun c' => c'.registers.get_value i.x) =
        some ((c.registers.get_value i.x + c.registers.get_value i.y) % 256) ∧
      (c.execute i).toOption.map (fun c' => c'.registers.get_value 0xF) =
        some (if 255 < c.registers.get_value i.x + c.registers.get_value i.y then 1 else 0)) ∧
    (i.n = 0x5 →
      (c.execute i).toOption.map (fun c' => c'.registers.get_value i.x) =
        some ((c.registers.get_value i.x + 256 - c.registers.get_value i.y) % 256) ∧
      (c.execute i).toOption.map (fun c' => c'.registers.get_value 0xF) =
        some (if c.registers.get_value i.y ≤ c.registers.get_value i.x then 1 else 0)) := by
  constructor
  · intro hn
    rw [execute_add_register c i hf hn]
    constructor
    · simp [Chip8.add_register, Except.toOption, Registers.get_value, Registers.set_value, hx]
    · simp only [Chip8.add_register, Except.toOption, Option.map, Registers.get_value,
        Registers.set_value, if_pos rfl]
      exact congrArg some (toNat_decide_eq_ite (by omega))
  · intro hn
    rw [execute_sub_register_xy c i hf hn]
    constructor
    · simp [Chip8.sub_register_xy, Except.toOption, Registers.get_value, Registers.set_value, hx]
    · simp only [Chip8.sub_register_xy, Except.toOption, Option.map, Registers.get_value,
        Registers.set_value, if_pos rfl]
      exact congrArg some (toNat_not_decide_eq_ite (by omega))

/-- C1 fails as literally stated when X = 15: with register 15 holding 5 and
register 0 holding 7, executing `0x8F04` leaves register X (= 15) holding
the carry flag 0, not `(5 + 7) % 256 = 12`. -/
theorem C1_counterexample :
    (((initChip8.set_value 0xF 5).set_value 0x0 7).execute
        (Instruction.mk 0x8F04)).toOption.map (fun c' => c'.registers.get_value 0xF) ≠
      some ((5 + 7) % 256) := by
  decide

theorem C1_witness :
    (Instruction.mk 0x8014).first = 0x8 ∧ (Instruction.mk 0x8014).x ≠ 0xF ∧
    (((initChip8.set_value 0x0 200).set_value 0x1 100).execute
        (Instruction.mk 0x8014)).toOption.map (fun c' => c'.registers.get_value 0xF) =
      some 1 := by
  refine ⟨by decide, by decide, ?_⟩
  have h := (C1_arith_flags ((initChip8.set_value 0x0 200).set_value 0x1 100)
    (Instruction.mk 0x8014) (by decide) (by decide) (by decide) (by decide)).1 (by decide)
  exact h.2.trans (by decide)

/-- C10: `0x7XNN` stores `(VX + NN) % 256` in register X, leaves every other
register unchanged, and in particular (X ≠ 15) never touches the flag
register 15. -/
theorem C10_add_value_no_flag (c : Chip8) (i : Instruction)
    (hf : i.first = 0x7) (ha : c.registers.get_value i.x < 256) :
    (c.execute i).toOption.map (fun c' => c'.registers.get_value i.x) =
      some ((c.registers.get_value i.x + i.nn) % 256) ∧
    (∀ j, j ≠ i.x →
      (c.execute i).toOption.map (fun c' => c'.registers.get_value j) =
        some (c.registers.get_value j)) ∧
    (i.x ≠ 0xF →
      (c.execute i).toOption.map (fun c' => c'.registers.get_value 0xF) =
        some (c.registers.get_value 0xF)) := by
  rw [execute_add_value c i hf]
  refine ⟨?_, ?_, ?_⟩
  · simp [Chip8.add_value, Except.toOption, Registers.get_value, Registers.set_value]
  · intro j hj
    simp [Chip8.add_value, Except.toOption, Registers.get_value, Registers.set_value, hj]
  · intro hx
    simp [Chip8.add_value, Except.toOption, Registers.get_value, Registers.set_value,
      Ne.symm hx]

theorem C10_witness :
    (Instruction.mk 0x70FF).first = 0x7 ∧
    ((initChip8.set_value 0x0 200).execute (Instruction.mk 0x70FF)).toOption.map
      (fun c' => c'.registers.get_value 0x0) = some ((200 + 255) % 256) := by
  refine ⟨by decide, ?_⟩
  have h := C10_add_value_no_flag (initChip8.set_value 0x0 200) (Instruction.mk 0x70FF)
    (by decide) (by decide)
  exact h.1.trans (by decide)

/-- C9 (amended: X ≠ 15 for the stored value; see `C9_counterexample`):
with the assign-before-shift quirk enabled, `0x8XY6`/`0x8XYE` first
overwrite register X with register Y and then shift; in both quirk modes
register 15 receives the bit shifted out (bit 0 right, bit 7 left) of the
post-assignment value of X (`shiftSource`). -/
theorem C9_shift_semantics (c : Chip8) (i : Instruction)
    (hf : i.first = 0x8) (hx : i.x ≠ 0xF) :
    (i.n = 0x6 →
      (c.settings.assign_shift = true →
        (c.execute i).toOption.map (fun c' => c'.registers.get_value i.x) =
          some (c.registers.get_value i.y >>> 1)) ∧
      (c.execute i).toOption.map (fun c' => c'.registers.get_value 0xF) =
        some ((shiftSource c i.x i.y).testBit 0).toNat) ∧
    (i.n = 0xE →
      (c.settings.assign_shift = true →
        (c.execute i).toOption.map (fun c' => c'.registers.get_value i.x) =
          some ((c.registers.get_value i.y <<< 1) % 256)) ∧
      (c.execute i).toOption.map (fun c' => c'.registers.get_value 0xF) =
        some ((shiftSource c i.x i.y).testBit 7).toNat) := by
  constructor
  · intro hn
    rw [execute_shift_right c i hf hn]
    constructor
    · intro hq
      simp [Chip8.shift_right, hq, Except.toOption, Registers.get_value,
        Registers.set_value, hx]
    · cases hq : c.settings.assign_shift <;>
        simp [Chip8.shift_right, hq, Except.toOption, Registers.get_value,
          Registers.set_value, shiftSource, decide_and_one]
  · intro hn
    rw [execute_shift_left c i hf hn]
    constructor
    · intro hq
      simp [Chip8.shift_left, hq, Except.toOption, Registers.get_value,
        Registers.set_value, hx]
    · cases hq : c.settings.assign_shift <;>
        simp [Chip8.shift_left, hq, Except.toOption, Registers.get_value,
          Registers.set_value, shiftSource, decide_and_128]

/-- C9 fails as literally stated when X = 15: with the quirk enabled and
register 0 holding 4, `0x8F06` should (per the claim) leave register X
(= 15) holding `4 >>> 1 = 2`; it actually holds the shifted-out bit 0. -/
theorem C9_counterexample :
    ((quirkChip8.set_value 0x0 4).execute (Instruction.mk 0x8F06)).toOption.map
      (fun c' => c'.registers.get_value 0xF) ≠ some (4 >>> 1) := by
  decide

theorem C9_witness :
    (Instruction.mk 0x8016).first = 0x8 ∧ (Instruction.mk 0x8016).x ≠ 0xF ∧
    ((quirkChip8.set_value 0x1 5).execute (Instruction.mk 0x8016)).toOption.map
      (fun c' => c'.registers.get_value (Instruction.mk 0x8016).x) = some 2 ∧
    ((quirkChip8.set_value 0x1 5).execute (Instruction.mk 0x8016)).toOption.map
      (fun c' => c'.registers.get_value 0xF) = some 1 := by
  have h := (C9_shift_semantics (quirkChip8.set_value 0x1 5) (Instruction.mk 0x8016)
    (by decide) (by decide)).1 (by decide)
  exact ⟨by decide, by decide, (h.1 (by decide)).trans (by decide), h.2.trans (by decide)⟩

/-- C5 (amended: the error identifies the raw word but not the program
counter): any unrecognized encoding makes `execute` fail with
`unknownInstruction` carrying the raw 16-bit word, so execution does not
continue. -/
theorem C5_unknown_instruction (c : Chip8) (i : Instruction) (h : ¬ recognized i) :
    c.execute i = Except.error (Chip8Error.unknownInstruction i.value) := by
  simp only [recognized, not_or] at h
  obtain ⟨h1, h2, h3, h4, h5, h6, h7, h8, h9, h10, h11, h12, h13, h14, h15, h16, h17,
    h18, h19, h20, h21, h22, h23, h24, h25, h26, h27, h28, h29, h30, h31, h32, h33⟩ := h
  simp only [Chip8.execute, if_neg h1, if_neg h2, if_neg h3, if_neg h4, if_neg h5,
    if_neg h6, if_neg h7, if_neg h8, if_neg h9, if_neg h10, if_neg h11, if_neg h12,
    if_neg h13, if_neg h14, if_neg h15, if_neg h16, if_neg h17, if_neg h18, if_neg h19,
    if_neg h20, if_neg h21, if_neg h22, if_neg h23, if_neg h24, if_neg h25, if_neg h26,
    if_neg h27, if_neg h28, if_neg h29, if_neg h30, if_neg h31, if_neg h32, if_neg h33]

/-- C5 fails as literally stated on the program-counter half: two states
that differ only in the program counter surface the *same* error for the
unrecognized word `0xFFFF`, so the error cannot identify the current
program counter. -/
theorem C5_counterexample :
    ({ initChip8 with program_counter := 0x200 } : Chip8).execute (Instruction.mk 0xFFFF) =
      ({ initChip8 with program_counter := 0x300 } : Chip8).execute (Instruction.mk 0xFFFF) ∧
    (0x200 : Nat) ≠ 0x300 :=
  ⟨rfl, by decide⟩

theorem C5_witness :
    ¬ recognized (Instruction.mk 0xFFFF) ∧
    initChip8.execute (Instruction.mk 0xFFFF) =
      Except.error (Chip8Error.unknownInstruction 0xFFFF) :=
  ⟨by decide, C5_unknown_instruction initChip8 (Instruction.mk 0xFFFF) (by decide)⟩

/-- C6: executing `0x00EE` errors with the empty-stack failure exactly when
the call stack is empty; on a non-empty stack it pops the last saved
address into the program counter. -/
theorem C6_return_underflow (c : Chip8) (i : Instruction) (hf : i.first = 0x0)
    (hn : i.nnn = 0x0EE) :
    (c.execute i = Except.error Chip8Error.emptyStack ↔ c.stack.buffer = []) ∧
    (∀ l a, c.stack.buffer = l ++ [a] →
      c.execute i = Except.ok { c with program_counter := a, stack := { buffer := l } }) := by
  rw [execute_return c i hf hn]
  constructor
  · constructor
    · intro h
      by_contra hne
      rcases List.eq_nil_or_concat c.stack.buffer with h0 | ⟨l, a, h0⟩
      · exact hne h0
      · rw [Chip8.return_subroutine, Stack.pop, h0, List.concat_eq_append,
          List.getLast?_concat] at h
        simp at h
    · intro h0
      rw [Chip8.return_subroutine, Stack.pop, h0]
      rfl
  · intro l a h0
    rw [Chip8.return_subroutine, Stack.pop, h0, List.getLast?_concat]
    simp [List.dropLast_concat]

theorem C6_witness :
    (Instruction.mk 0x00EE).first = 0x0 ∧
    initChip8.execute (Instruction.mk 0x00EE) = Except.error Chip8Error.emptyStack :=
  ⟨by decide,
    (C6_return_underflow initChip8 (Instruction.mk 0x00EE) (by decide) (by decide)).1.mpr rfl⟩

/-- C4 (amended: a key-up records the released key as pending only when the
pending machinery is engaged — `Waiting` or an unread `Pressed` — and is
discarded in the idle `NotWaiting` state; see `C4_counterexample`):
key-down sets the key's press state, key-up clears it and overwrites any
unread pending key, and reading the pending slot consumes it. -/
theorem C4_keypad_events (kp : Keypad) (key : Nat) :
    ((kp.processEvent (Event.KeyDown key)).key_states key = true ∧
      (kp.processEvent (Event.KeyDown key)).last_pressed = kp.last_pressed ∧
      ∀ j, j ≠ key → (kp.processEvent (Event.KeyDown key)).key_states j = kp.key_states j) ∧
    ((kp.processEvent (Event.KeyUp key)).key_states key = false ∧
      (kp.last_pressed ≠ LastKeyState.NotWaiting →
        (kp.processEvent (Event.KeyUp key)).last_pressed = LastKeyState.Pressed key) ∧
      (kp.last_pressed = LastKeyState.NotWaiting →
        (kp.processEvent (Event.KeyUp key)).last_pressed = LastKeyState.NotWaiting) ∧
      ∀ j, j ≠ key → (kp.processEvent (Event.KeyUp key)).key_states j = kp.key_states j) ∧
    (∀ k0, kp.last_pressed = LastKeyState.Pressed k0 →
      kp.lastPressed = (some k0, { kp with last_pressed := LastKeyState.NotWaiting })) ∧
    ((kp.last_pressed = LastKeyState.NotWaiting ∨ kp.last_pressed = LastKeyState.Waiting) →
      kp.lastPressed = (none, { kp with last_pressed := LastKeyState.Waiting })) := by
  refine ⟨⟨?_, ?_, ?_⟩, ⟨?_, ?_, ?_, ?_⟩, ?_, ?_⟩
  · simp [Keypad.processEvent]
  · simp [Keypad.processEvent]
  · intro j hj
    simp [Keypad.processEvent, hj]
  · simp [Keypad.processEvent]
  · intro h
    cases hk : kp.last_pressed <;> simp [Keypad.processEvent, hk] <;> exact (h hk).elim
  · intro h
    simp [Keypad.processEvent, h]
  · intro j hj
    simp [Keypad.processEvent, hj]
  · intro k0 h
    simp [Keypad.lastPressed, h]
  · intro h
    rcases h with h | h <;> simp [Keypad.lastPressed, h]

/-- C4 fails as literally stated: on a fresh keypad (idle pending state), a
key-up for key 5 does *not* record 5 as pending — the pending slot stays
`NotWaiting` and a subsequent read returns nothing. -/
theorem C4_counterexample :
    (Keypad.new.processEvent (Event.KeyUp 5)).last_pressed = LastKeyState.NotWaiting ∧
    ((Keypad.new.processEvent (Event.KeyUp 5)).lastPressed).1 ≠ some 5 := by
  constructor
  · rfl
  · decide

theorem C4_witness :
    ({ Keypad.new with last_pressed := LastKeyState.Waiting } : Keypad).last_pressed ≠
      LastKeyState.NotWaiting ∧
    (({ Keypad.new with last_pressed := LastKeyState.Waiting } : Keypad).processEvent
      (Event.KeyUp 5)).last_pressed = LastKeyState.Pressed 5 :=
  ⟨by decide,
    ((C4_keypad_events { Keypad.new with last_pressed := LastKeyState.Waiting } 5).2.1.2.1)
      (by decide)⟩

/-- C3: when the fetched instruction is `0xFX0A`, a pending one-shot key
release is consumed into register X and the program counter stays advanced
(`+ 2`); with no pending release the program counter is rewound by 2, i.e.
the cycle leaves it unchanged so the same instruction is refetched. -/
theorem C3_key_wait (c : Chip8)
    (hf : (c.fetch.1).first = 0xF) (hn : (c.fetch.1).nn = 0x0A) :
    (∀ k, c.keypad.last_pressed = LastKeyState.Pressed k →
      c.step = Except.ok { c with
        program_counter := c.program_counter + 2
        registers := c.registers.set_value (c.fetch.1).x k
        keypad := { c.keypad with last_pressed := LastKeyState.NotWaiting } }) ∧
    ((c.keypad.last_pressed = LastKeyState.NotWaiting ∨
        c.keypad.last_pressed = LastKeyState.Waiting) →
      c.step = Except.ok { c with
        keypad := { c.keypad with last_pressed := LastKeyState.Waiting } }) := by
  have hstep : c.step = (c.fetch.2).execute (c.fetch.1) := rfl
  have hdispatch : (c.fetch.2).execute (c.fetch.1) =
      Except.ok ((c.fetch.2).get_key (c.fetch.1).x) :=
    execute_get_key _ _ hf hn
  constructor
  · intro k hp
    rw [hstep, hdispatch]
    simp [Chip8.get_key, Chip8.fetch, Keypad.lastPressed, hp]
  · intro hp
    rw [hstep, hdispatch]
    rcases hp with hp | hp <;>
      simp [Chip8.get_key, Chip8.fetch, Keypad.lastPressed, hp, Nat.add_sub_cancel]

theorem C3_witness :
    keyWaitChip8.fetch.1.first = 0xF ∧ keyWaitChip8.fetch.1.nn = 0x0A ∧
    keyWaitChip8.step = Except.ok { keyWaitChip8 with
      program_counter := keyWaitChip8.program_counter + 2
      registers := keyWaitChip8.registers.set_value keyWaitChip8.fetch.1.x 7
      keypad := { keyWaitChip8.keypad with last_pressed := LastKeyState.NotWaiting } } := by
  refine ⟨by decide, by decide, ?_⟩
  exact (C3_key_wait keyWaitChip8 (by decide) (by decide)).1 7 rfl

/-! Draw-instruction infrastructure. -/

theorem bit_toList_eq_filter : ∀ num < 256,
    BitIterator.toList num = (List.range 8).filter (fun off => num.testBit (7 - off)) := by
  decide

theorem bit_toList_pairwise : ∀ num < 256,
    List.Pairwise (· < ·) (BitIterator.toList num) := by
  decide

theorem any_congrOn {α : Type} {l : List α} {p q : α → Bool}
    (h : ∀ a ∈ l, p a = q a) : l.any p = l.any q := by
  induction l with
  | nil => rfl
  | cons a l ih =>
      simp only [List.any_cons, h a (by simp)]
      rw [ih (fun b hb => h b (by simp [hb]))]

theorem xor_or_split (a t1 t2 : Bool) (h : (t1 && t2) = false) :
    xor (xor a t1) t2 = xor a (t1 || t2) := by
  cases a <;> cases t1 <;> cases t2 <;> simp_all

theorem drawRowGo_spec (x_start y : Nat) :
    ∀ (offs : List Nat), List.Pairwise (· < ·) offs →
    ∀ (d : Chip8Display) (flags : Bool),
      (∀ i, (drawRowGo x_start y offs d flags).1.buffer i =
        xor (d.buffer i) (rowToggle x_start y offs i)) ∧
      (drawRowGo x_start y offs d flags).2 = (flags || rowCollide x_start y offs d) := by
  intro offs
  induction offs with
  | nil =>
      intro _ d flags
      constructor
      · intro i
        simp [drawRowGo, rowToggle]
      · simp [drawRowGo, rowCollide]
  | cons off rest ih =>
      intro hp d flags
      have hOffLt : ∀ r ∈ rest, off < r := (List.pairwise_cons.mp hp).1
      have hpr : List.Pairwise (· < ·) rest := (List.pairwise_cons.mp hp).2
      by_cases hb : 64 ≤ x_start + off
      · have hrest : ∀ r ∈ rest, 64 ≤ x_start + r := by
          intro r hr
          have := hOffLt r hr
          omega
        constructor
        · intro i
          have h1 : rowToggle x_start y (off :: rest) i = false := by
            simp only [rowToggle, List.any_cons, Bool.or_eq_false_iff]
            constructor
            · simp only [Bool.and_eq_false_iff]
              left
              simpa using hb
            · rw [List.any_eq_false]
              intro r hr
              simp only [Bool.and_eq_true, decide_eq_true_eq, not_and]
              intro h64
              exact absurd h64 (by have := hrest r hr; omega)
          rw [h1]
          simp [drawRowGo, hb]
        · have h2 : rowCollide x_start y (off :: rest) d = false := by
            simp only [rowCollide, List.any_cons, Bool.or_eq_false_iff]
            constructor
            · simp only [Bool.and_eq_false_iff]
              left
              simpa using hb
            · rw [List.any_eq_false]
              intro r hr
              simp only [Bool.and_eq_true, decide_eq_true_eq, not_and]
              intro h64
              exact absurd h64 (by have := hrest r hr; omega)
          rw [h2]
          simp [drawRowGo, hb]
      · have hblt : x_start + off < 64 := by omega
        have hstep : drawRowGo x_start y (off :: rest) d flags =
            drawRowGo x_start y rest
              { buffer := fun i => if i = x_start + off + y * 64
                  then !d.buffer (x_start + off + y * 64) else d.buffer i }
              (flags || d.buffer (x_start + off + y * 64)) := by
          simp [drawRowGo, hb, Chip8Display.set]
        obtain ⟨ihb, ihf⟩ := ih hpr
          { buffer := fun i => if i = x_start + off + y * 64
              then !d.buffer (x_start + off + y * 64) else d.buffer i }
          (flags || d.buffer (x_start + off + y * 64))
        have hRestNe : ∀ r ∈ rest, x_start + r + y * 64 ≠ x_start + off + y * 64 := by
          intro r hr
          have := hOffLt r hr
          omega
        constructor
        · intro i
          rw [hstep, ihb i]
          by_cases hi : i = x_start + off + y * 64
          · subst hi
            have hrt : rowToggle x_start y rest (x_start + off + y * 64) = false := by
              rw [rowToggle, List.any_eq_false]
              intro r hr
              simp only [Bool.and_eq_true, decide_eq_true_eq, not_and]
              intro _
              exact fun he => hRestNe r hr he.symm
            have hct : rowToggle x_start y (off :: rest) (x_start + off + y * 64) = true := by
              simp [rowToggle, List.any_cons, hblt]
            rw [hrt, hct]
            simp
          · have hsame : rowToggle x_start y (off :: rest) i = rowToggle x_start y rest i := by
              simp [rowToggle, List.any_cons, fun h : i = x_start + off + y * 64 => hi h]
            rw [hsame]
            simp [hi]
        · rw [hstep, ihf]
          have hcoll : rowCollide x_start y rest
              { buffer := fun i => if i = x_start + off + y * 64
                  then !d.buffer (x_start + off + y * 64) else d.buffer i } =
              rowCollide x_start y rest d := by
            apply any_congrOn
            intro r hr
            simp [hRestNe r hr]
          rw [hcoll]
          have : rowCollide x_start y (off :: rest) d =
              (d.buffer (x_start + off + y * 64) || rowCollide x_start y rest d) := by
            simp [rowCollide, List.any_cons, hblt]
          rw [this, Bool.or_assoc]

theorem rowCollide_congr (x_start y : Nat) (offs : List Nat) (d d' : Chip8Display)
    (h : ∀ off ∈ offs, x_start + off < 64 →
      d'.buffer (x_start + off + y * 64) = d.buffer (x_start + off + y * 64)) :
    rowCollide x_start y offs d' = rowCollide x_start y offs d := by
  apply any_congrOn
  intro off hoff
  by_cases hb : x_start + off < 64
  · rw [h off hoff hb]
  · simp [hb]

theorem drawRows_spec (memory : Memory) (index x_start y_start : Nat) :
    ∀ (rows : List Nat), List.Pairwise (· < ·) rows →
    (∀ row ∈ rows, memory.get_u8 (index + row) < 256) →
    ∀ (d : Chip8Display) (flags : Bool),
      (∀ i, (drawRows memory index x_start y_start rows d flags).1.buffer i =
        xor (d.buffer i) (rowsToggle memory index x_start y_start rows i)) ∧
      (drawRows memory index x_start y_start rows d flags).2 =
        (flags || rowsCollide memory index x_start y_start rows d) := by
  intro rows
  induction rows with
  | nil =>
      intro _ _ d flags
      constructor
      · intro i
        simp [drawRows, rowsToggle]
      · simp [drawRows, rowsCollide]
  | cons row rest ih =>
      intro hp hbytes d flags
      have hRowLt : ∀ r ∈ rest, row < r := (List.pairwise_cons.mp hp).1
      have hpr : List.Pairwise (· < ·) rest := (List.pairwise_cons.mp hp).2
      have hbrest : ∀ r ∈ rest, memory.get_u8 (index + r) < 256 :=
        fun r hr => hbytes r (by simp [hr])
      by_cases hy : 32 ≤ y_start + row
      · have hrest32 : ∀ r ∈ rest, 32 ≤ y_start + r := by
          intro r hr
          have := hRowLt r hr
          omega
        constructor
        · intro i
          have h1 : rowsToggle memory index x_start y_start (row :: rest) i = false := by
            simp only [rowsToggle, List.any_cons, Bool.or_eq_false_iff]
            refine ⟨by simp only [Bool.and_eq_false_iff]; left; simpa using hy, ?_⟩
            rw [List.any_eq_false]
            intro r hr
            simp only [Bool.and_eq_true, decide_eq_true_eq, not_and]
            intro h32
            exact absurd h32 (by have := hrest32 r hr; omega)
          rw [h1]
          simp [drawRows, hy]
        · have h2 : rowsCollide memory index x_start y_start (row :: rest) d = false := by
            simp only [rowsCollide, List.any_cons, Bool.or_eq_false_iff]
            refine ⟨by simp only [Bool.and_eq_false_iff]; left; simpa using hy, ?_⟩
            rw [List.any_eq_false]
            intro r hr
            simp only [Bool.and_eq_true, decide_eq_true_eq, not_and]
            intro h32
            exact absurd h32 (by have := hrest32 r hr; omega)
          rw [h2]
          simp [drawRows, hy]
      · have hylt : y_start + row < 32 := by omega
        have hbyte : memory.get_u8 (index + row) < 256 := hbytes row (by simp)
        have hoffsp : List.Pairwise (· < ·)
            (BitIterator.toList (memory.get_u8 (index + row))) :=
          bit_toList_pairwise _ hbyte
        obtain ⟨hrowb, hrowf⟩ := drawRowGo_spec x_start (y_start + row)
          (BitIterator.toList (memory.get_u8 (index + row))) hoffsp d flags
        have hstep : drawRows memory index x_start y_start (row :: rest) d flags =
            drawRows memory index x_start y_start rest
              (drawRowGo x_start (y_start + row)
                (BitIterator.toList (memory.get_u8 (index + row))) d flags).1
              (drawRowGo x_start (y_start + row)
                (BitIterator.toList (memory.get_u8 (index + row))) d flags).2 := by
          simp [drawRows, hy]
        have hdisj : ∀ i, (rowToggle x_start (y_start + row)
            (BitIterator.toList (memory.get_u8 (index + row))) i &&
            rowsToggle memory index x_start y_start rest i) = false := by
          intro i
          by_cases h1 : rowToggle x_start (y_start + row)
              (BitIterator.toList (memory.get_u8 (index + row))) i = true
          · suffices h2 : rowsToggle memory index x_start y_start rest i = false by
              simp [h1, h2]
            simp only [rowToggle, List.any_eq_true, Bool.and_eq_true,
              decide_eq_true_eq] at h1
            obtain ⟨off, _, hofflt, hi⟩ := h1
            rw [rowsToggle, List.any_eq_false]
            intro r2 hr2
            simp only [Bool.and_eq_true, decide_eq_true_eq, not_and]
            intro _
            simp only [rowToggle, List.any_eq_true, Bool.and_eq_true, decide_eq_true_eq,
              not_exists, not_and]
            intro off2 _ hoff2lt
            have := hRowLt r2 hr2
            omega
          · simp only [Bool.not_eq_true] at h1
            simp [h1]
        obtain ⟨ihb, ihf⟩ := ih hpr hbrest
          (drawRowGo x_start (y_start + row)
            (BitIterator.toList (memory.get_u8 (index + row))) d flags).1
          (drawRowGo x_start (y_start + row)
            (BitIterator.toList (memory.get_u8 (index + row))) d flags).2
        constructor
        · intro i
          rw [hstep, ihb i, hrowb i, xor_or_split _ _ _ (hdisj i)]
          have hcons : rowsToggle memory index x_start y_start (row :: rest) i =
              (rowToggle x_start (y_start + row)
                (BitIterator.toList (memory.get_u8 (index + row))) i ||
               rowsToggle memory index x_start y_start rest i) := by
            simp [rowsToggle, List.any_cons, hylt]
          rw [hcons]
        · rw [hstep, ihf, hrowf]
          have hcoll : rowsCollide memory index x_start y_start rest
              (drawRowGo x_start (y_start + row)
                (BitIterator.toList (memory.get_u8 (index + row))) d flags).1 =
              rowsCollide memory index x_start y_start rest d := by
            apply any_congrOn
            intro r2 hr2
            by_cases h32 : y_start + r2 < 32
            · have hcc := rowCollide_congr x_start (y_start + r2)
                (BitIterator.toList (memory.get_u8 (index + r2)))
                d
                (drawRowGo x_start (y_start + row)
                  (BitIterator.toList (memory.get_u8 (index + row))) d flags).1
                ?_
              · rw [hcc]
              · intro off2 _ hoff2lt
                rw [hrowb]
                have hT1 : rowToggle x_start (y_start + row)
                    (BitIterator.toList (memory.get_u8 (index + row)))
                    (x_start + off2 + (y_start + r2) * 64) = false := by
                  rw [rowToggle, List.any_eq_false]
                  intro off hoff
                  simp only [Bool.and_eq_true, decide_eq_true_eq, not_and]
                  intro hofflt
                  have := hRowLt r2 hr2
                  omega
                rw [hT1]
                simp
            · simp [h32]
          rw [hcoll]
          have hconsColl : rowsCollide memory index x_start y_start (row :: rest) d =
              (rowCollide x_start (y_start + row)
                (BitIterator.toList (memory.get_u8 (index + row))) d ||
               rowsCollide memory index x_start y_start rest d) := by
            simp [rowsCollide, List.any_cons, hylt]
          rw [hconsColl, Bool.or_assoc]

theorem any_filterOn {α : Type} (l : List α) (p q : α → Bool) :
    (l.filter p).any q = l.any fun a => p a && q a := by
  induction l with
  | nil => rfl
  | cons a l ih =>
      by_cases hp : p a = true
      · simp [List.filter_cons, hp, List.any_cons, ih]
      · simp only [Bool.not_eq_true] at hp
        simp [List.filter_cons, hp, List.any_cons, ih]

theorem displayOp_spec (c : Chip8) (X Y n : Nat)
    (hbytes : ∀ r ∈ List.range n, c.memory.get_u8 (c.index_register + r) < 256) :
    (∀ i, (c.displayOp X Y n).display.buffer i =
      xor (c.display.buffer i)
        (rowsToggle c.memory c.index_register (c.registers.get_value X % 64)
          (c.registers.get_value Y % 32) (List.range n) i)) ∧
    ((c.displayOp X Y n).registers.get_value 0xF =
      if rowsCollide c.memory c.index_register (c.registers.get_value X % 64)
          (c.registers.get_value Y % 32) (List.range n) c.display then 1 else 0) ∧
    (∀ j, j ≠ 0xF → (c.displayOp X Y n).registers.get_value j = c.registers.get_value j) ∧
    (c.displayOp X Y n).memory = c.memory ∧
    (c.displayOp X Y n).index_register = c.index_register ∧
    (c.displayOp X Y n).settings = c.settings := by
  obtain ⟨hb, hf⟩ := drawRows_spec c.memory c.index_register
    (c.registers.get_value X % 64) (c.registers.get_value Y % 32)
    (List.range n) (List.pairwise_lt_range n) hbytes c.display false
  have hun : c.displayOp X Y n = { c with
      display := (drawRows c.memory c.index_register (c.registers.get_value X % 64)
        (c.registers.get_value Y % 32) (List.range n) c.display false).1
      registers := c.registers.set_value 0xF
        (if (drawRows c.memory c.index_register (c.registers.get_value X % 64)
          (c.registers.get_value Y % 32) (List.range n) c.display false).2
         then 1 else 0) } := rfl
  refine ⟨?_, ?_, ?_, ?_, ?_, ?_⟩
  · intro i
    rw [hun]
    exact hb i
  · rw [hun]
    show Registers.get_value (c.registers.set_value 0xF _) 0xF = _
    rw [get_value_set_same, hf, Bool.false_or]
  · intro j hj
    rw [hun]
    simp [Registers.get_value, Registers.set_value, hj]
  · rw [hun]
  · rw [hun]
  · rw [hun]

theorem rowsToggle_eq_spritePixel (memory : Memory) (index x_start y_start n x y : Nat)
    (hx : x < 64) (hy : y < 32)
    (hbytes : ∀ r ∈ List.range n, memory.get_u8 (index + r) < 256) :
    rowsToggle memory index x_start y_start (List.range n) (x + y * 64) =
      spritePixel memory index x_start y_start n x y := by
  rw [Bool.eq_iff_iff]
  simp only [rowsToggle, spritePixel, rowToggle, List.any_eq_true, List.mem_range,
    Bool.and_eq_true, decide_eq_true_eq]
  constructor
  · rintro ⟨row, hrow, h32, off, hoffmem, h64, heq⟩
    rw [bit_toList_eq_filter _ (hbytes row (by simp [hrow])), List.mem_filter] at hoffmem
    obtain ⟨hoffr, htb⟩ := hoffmem
    refine ⟨row, hrow, off, by simpa using hoffr, ⟨by omega, by omega⟩, by simpa using htb⟩
  · rintro ⟨row, hrow, off, hoff8, ⟨hy9, hx9⟩, htb⟩
    refine ⟨row, hrow, by omega, off, ?_, by omega, by omega⟩
    rw [bit_toList_eq_filter _ (hbytes row (by simp [hrow])), List.mem_filter]
    exact ⟨by simpa using hoff8, by simpa using htb⟩

theorem rowsCollide_iff (memory : Memory) (index x_start y_start n : Nat) (d : Chip8Display)
    (hbytes : ∀ r ∈ List.range n, memory.get_u8 (index + r) < 256) :
    (rowsCollide memory index x_start y_start (List.range n) d = true ↔
      ∃ x, x < 64 ∧ ∃ y, y < 32 ∧
        spritePixel memory index x_start y_start n x y = true ∧
        d.buffer (x + y * 64) = true) := by
  simp only [rowsCollide, rowCollide, spritePixel, List.any_eq_true, List.mem_range,
    Bool.and_eq_true, decide_eq_true_eq]
  constructor
  · rintro ⟨row, hrow, h32, off, hoffmem, h64, hbuf⟩
    rw [bit_toList_eq_filter _ (hbytes row (by simp [hrow])), List.mem_filter] at hoffmem
    obtain ⟨hoffr, htb⟩ := hoffmem
    exact ⟨x_start + off, h64, y_start + row, h32,
      ⟨row, hrow, off, by simpa using hoffr, ⟨rfl, rfl⟩, by simpa using htb⟩, hbuf⟩
  · rintro ⟨x, hx, y, hy, ⟨row, hrow, off, hoff8, ⟨hy9, hx9⟩, htb⟩, hbuf⟩
    subst hy9
    subst hx9
    refine ⟨row, hrow, by omega, off, ?_, by omega, hbuf⟩
    rw [bit_toList_eq_filter _ (hbytes row (by simp [hrow])), List.mem_filter]
    exact ⟨by simpa using hoff8, by simpa using htb⟩

/-- C2: `0xDXYN` takes its start coordinates as registers X and Y reduced
mod 64/32 once at placement, reads sprite rows from memory at the index
register, XOR-toggles exactly the in-frame sprite pixels (clipping at
column 64 and row 32, which abandon the row resp. the whole sprite), and
afterwards register 15 is 1 iff some toggled pixel was previously set,
else 0. -/
theorem C2_draw_semantics (c : Chip8) (i : Instruction) (hf : i.first = 0xD)
    (hbytes : ∀ r ∈ List.range i.n, c.memory.get_u8 (c.index_register + r) < 256) :
    c.execute i = Except.ok (c.displayOp i.x i.y i.n) ∧
    (∀ x, x < 64 → ∀ y, y < 32 →
      (c.displayOp i.x i.y i.n).display.buffer (x + y * 64) =
        xor (c.display.buffer (x + y * 64))
          (spritePixel c.memory c.index_register (c.registers.get_value i.x % 64)
            (c.registers.get_value i.y % 32) i.n x y)) ∧
    ((c.displayOp i.x i.y i.n).registers.get_value 0xF = 1 ↔
      ∃ x, x < 64 ∧ ∃ y, y < 32 ∧
        spritePixel c.memory c.index_register (c.registers.get_value i.x % 64)
          (c.registers.get_value i.y % 32) i.n x y = true ∧
        c.display.buffer (x + y * 64) = true) ∧
    ((c.displayOp i.x i.y i.n).registers.get_value 0xF = 1 ∨
      (c.displayOp i.x i.y i.n).registers.get_value 0xF = 0) ∧
    (∀ x_start y off rest d flags, 64 ≤ x_start + off →
      drawRowGo x_start y (off :: rest) d flags = (d, flags)) ∧
    (∀ memory index x_start y_start row rest d flags, 32 ≤ y_start + row →
      drawRows memory index x_start y_start (row :: rest) d flags = (d, flags)) := by
  obtain ⟨hbuf, hflag, _, _, _, _⟩ := displayOp_spec c i.x i.y i.n hbytes
  refine ⟨execute_display c i hf, ?_, ?_, ?_, ?_, ?_⟩
  · intro x hx y hy
    rw [hbuf (x + y * 64),
      rowsToggle_eq_spritePixel c.memory c.index_register _ _ i.n x y hx hy hbytes]
  · rw [hflag]
    by_cases hcol : rowsCollide c.memory c.index_register
        (c.registers.get_value i.x % 64) (c.registers.get_value i.y % 32)
        (List.range i.n) c.display = true
    · rw [if_pos hcol]
      simp only [true_iff]
      exact (rowsCollide_iff _ _ _ _ _ _ hbytes).mp hcol
    · rw [if_neg hcol]
      constructor
      · intro h
        exact absurd h (by omega)
      · intro hex
        exact absurd ((rowsCollide_iff _ _ _ _ _ _ hbytes).mpr hex) hcol
  · rw [hflag]
    by_cases hcol : rowsCollide c.memory c.index_register
        (c.registers.get_value i.x % 64) (c.registers.get_value i.y % 32)
        (List.range i.n) c.display = true
    · left
      rw [if_pos hcol]
    · right
      rw [if_neg hcol]
  · intro x_start y off rest d flags h
    simp [drawRowGo, h]
  · intro memory index x_start y_start row rest d flags h
    simp [drawRows, h]

theorem C2_witness :
    (Instruction.mk 0xD011).first = 0xD ∧
    (drawChip8.displayOp (Instruction.mk 0xD011).x (Instruction.mk 0xD011).y
        (Instruction.mk 0xD011).n).display.buffer (0 + 0 * 64) =
      xor (drawChip8.display.buffer (0 + 0 * 64))
        (spritePixel drawChip8.memory drawChip8.index_register
          (drawChip8.registers.get_value (Instruction.mk 0xD011).x % 64)
          (drawChip8.registers.get_value (Instruction.mk 0xD011).y % 32)
          (Instruction.mk 0xD011).n 0 0) :=
  ⟨by decide, (C2_draw_semantics drawChip8 (Instruction.mk 0xD011) (by decide)
      (by decide)).2.1 0 (by decide) 0 (by decide)⟩

/-- C8: drawing the same sprite twice in a row (identical register, index,
and sprite memory contents — the draw itself preserves memory and index,
and the hypotheses say registers X and Y survive the flag write) restores
the framebuffer exactly (XOR is self-inverse), and the second draw's
collision flag is 1 iff some sprite pixel was clear before the first draw
(the first draw's inverse pattern). -/
theorem C8_double_draw (c : Chip8) (i : Instruction) (hf : i.first = 0xD)
    (hbytes : ∀ r ∈ List.range i.n, c.memory.get_u8 (c.index_register + r) < 256)
    (hX : (c.displayOp i.x i.y i.n).registers.get_value i.x = c.registers.get_value i.x)
    (hY : (c.displayOp i.x i.y i.n).registers.get_value i.y = c.registers.get_value i.y) :
    c.execute i = Except.ok (c.displayOp i.x i.y i.n) ∧
    (c.displayOp i.x i.y i.n).memory = c.memory ∧
    (c.displayOp i.x i.y i.n).index_register = c.index_register ∧
    (∀ j, ((c.displayOp i.x i.y i.n).displayOp i.x i.y i.n).display.buffer j =
      c.display.buffer j) ∧
    (((c.displayOp i.x i.y i.n).displayOp i.x i.y i.n).registers.get_value 0xF = 1 ↔
      ∃ x, x < 64 ∧ ∃ y, y < 32 ∧
        spritePixel c.memory c.index_register (c.registers.get_value i.x % 64)
          (c.registers.get_value i.y % 32) i.n x y = true ∧
        c.display.buffer (x + y * 64) = false) := by
  obtain ⟨hbuf1, _, _, hmem1, hidx1, _⟩ := displayOp_spec c i.x i.y i.n hbytes
  have hbytes1 : ∀ r ∈ List.range i.n,
      (c.displayOp i.x i.y i.n).memory.get_u8
        ((c.displayOp i.x i.y i.n).index_register + r) < 256 := by
    rw [hmem1, hidx1]
    exact hbytes
  obtain ⟨hbuf2, hflag2, _, _, _, _⟩ :=
    displayOp_spec (c.displayOp i.x i.y i.n) i.x i.y i.n hbytes1
  rw [hX, hY, hmem1, hidx1] at hbuf2 hflag2
  refine ⟨execute_display c i hf, hmem1, hidx1, ?_, ?_⟩
  · intro j
    rw [hbuf2 j, hbuf1 j, Bool.xor_assoc, Bool.xor_self, Bool.xor_false]
  · rw [hflag2]
    have hiff := rowsCollide_iff c.memory c.index_register
      (c.registers.get_value i.x % 64) (c.registers.get_value i.y % 32) i.n
      (c.displayOp i.x i.y i.n).display hbytes
    have hiff2 : rowsCollide c.memory c.index_register
        (c.registers.get_value i.x % 64) (c.registers.get_value i.y % 32)
        (List.range i.n) (c.displayOp i.x i.y i.n).display = true ↔
        ∃ x, x < 64 ∧ ∃ y, y < 32 ∧
          spritePixel c.memory c.index_register (c.registers.get_value i.x % 64)
            (c.registers.get_value i.y % 32) i.n x y = true ∧
          c.display.buffer (x + y * 64) = false := by
      rw [hiff]
      constructor
      · rintro ⟨x, hx, y, hy, hsp, hb1⟩
        rw [hbuf1 (x + y * 64),
          rowsToggle_eq_spritePixel c.memory c.index_register _ _ i.n x y hx hy hbytes,
          hsp] at hb1
        refine ⟨x, hx, y, hy, hsp, ?_⟩
        cases h : c.display.buffer (x + y * 64)
        · rfl
        · rw [h] at hb1
          simp at hb1
      · rintro ⟨x, hx, y, hy, hsp, hb0⟩
        refine ⟨x, hx, y, hy, hsp, ?_⟩
        rw [hbuf1 (x + y * 64),
          rowsToggle_eq_spritePixel c.memory c.index_register _ _ i.n x y hx hy hbytes,
          hsp, hb0]
        rfl
    by_cases hcol : rowsCollide c.memory c.index_register
        (c.registers.get_value i.x % 64) (c.registers.get_value i.y % 32)
        (List.range i.n) (c.displayOp i.x i.y i.n).display = true
    · rw [if_pos hcol]
      simp only [true_iff]
      exact hiff2.mp hcol
    · rw [if_neg hcol]
      constructor
      · intro h
        exact absurd h (by omega)
      · intro hex
        exact absurd (hiff2.mpr hex) hcol

theorem C8_witness :
    (Instruction.mk 0xD011).first = 0xD ∧
    ((drawChip8.displayOp (Instruction.mk 0xD011).x (Instruction.mk 0xD011).y
        (Instruction.mk 0xD011).n).displayOp (Instruction.mk 0xD011).x
        (Instruction.mk 0xD011).y (Instruction.mk 0xD011).n).display.buffer 0 =
      drawChip8.display.buffer 0 :=
  ⟨by decide, (C8_double_draw drawChip8 (Instruction.mk 0xD011) (by decide) (by decide)
      (by decide) (by decide)).2.2.2.1 0⟩

theorem get_u8_set_u8_same (m : Memory) (a v : Nat) : (m.set_u8 a v).get_u8 a = v := by
  simp [Memory.get_u8, Memory.set_u8]

theorem get_u8_set_u8_other (m : Memory) (a v b : Nat) (h : b ≠ a) :
    (m.set_u8 a v).get_u8 b = m.get_u8 b := by
  simp [Memory.get_u8, Memory.set_u8, h]

theorem store_foldl_frame (regs : Registers) (index : Nat) :
    ∀ (l : List Nat) (m : Memory) (a : Nat), (∀ r ∈ l, index + r ≠ a) →
    (l.foldl (fun m register => m.set_u8 (index + register) (regs.get_value register))
      m).get_u8 a = m.get_u8 a := by
  intro l
  induction l with
  | nil =>
      intro m a _
      rfl
  | cons b l ih =>
      intro m a h
      simp only [List.foldl_cons]
      rw [ih _ a (fun r hr => h r (by simp [hr]))]
      exact get_u8_set_u8_other m _ _ a (fun he => h b (by simp) he.symm)

theorem store_foldl_get (regs : Registers) (index : Nat) :
    ∀ (l : List Nat) (m : Memory) (r : Nat), r ∈ l →
    (l.foldl (fun m register => m.set_u8 (index + register) (regs.get_value register))
      m).get_u8 (index + r) = regs.get_value r := by
  intro l
  induction l with
  | nil =>
      intro m r hr
      simp at hr
  | cons b l ih =>
      intro m r hr
      simp only [List.foldl_cons]
      rcases List.mem_cons.mp hr with rfl | hrl
      · by_cases hbl : r ∈ l
        · exact ih _ r hbl
        · rw [store_foldl_frame regs index l _ (index + r) (by
            intro r2 hr2 he
            have h9 : r2 = r := by omega
            subst h9
            exact hbl hr2)]
          exact get_u8_set_u8_same m _ _
      · exact ih _ r hrl

theorem load_foldl_frame (mem : Memory) (index : Nat) :
    ∀ (l : List Nat) (rs : Registers) (j : Nat), (∀ r ∈ l, r ≠ j) →
    (l.foldl (fun rs register => rs.set_value register (mem.get_u8 (index + register)))
      rs).get_value j = rs.get_value j := by
  intro l
  induction l with
  | nil =>
      intro rs j _
      rfl
  | cons b l ih =>
      intro rs j h
      simp only [List.foldl_cons]
      rw [ih _ j (fun r hr => h r (by simp [hr]))]
      exact get_value_set_other rs _ _ j (fun he => h b (by simp) he.symm)

theorem load_foldl_get (mem : Memory) (index : Nat) :
    ∀ (l : List Nat) (rs : Registers) (r : Nat), r ∈ l →
    (l.foldl (fun rs register => rs.set_value register (mem.get_u8 (index + register)))
      rs).get_value r = mem.get_u8 (index + r) := by
  intro l
  induction l with
  | nil =>
      intro rs r hr
      simp at hr
  | cons b l ih =>
      intro rs r hr
      simp only [List.foldl_cons]
      rcases List.mem_cons.mp hr with rfl | hrl
      · by_cases hbl : r ∈ l
        · exact ih _ r hbl
        · rw [load_foldl_frame mem index l _ r
            (fun r2 hr2 he => hbl (he ▸ hr2))]
          exact get_value_set_same rs _ _
      · exact ih _ r hrl

theorem store_registers_memory (c : Chip8) (register_number : Nat) :
    (c.store_registers register_number).memory =
      (List.range (register_number + 1)).foldl
        (fun m register => m.set_u8 (c.index_register + register)
          (c.registers.get_value register)) c.memory := by
  simp only [Chip8.store_registers]
  split <;> rfl

theorem load_registers_registers (c : Chip8) (register_number : Nat) :
    (c.load_registers register_number).registers =
      (List.range (register_number + 1)).foldl
        (fun r register => r.set_value register
          (c.memory.get_u8 (c.index_register + register))) c.registers := by
  simp only [Chip8.load_registers]
  split <;> rfl

/-- C7: storing registers 0..=X at index I (`0xFX55`), zeroing registers
0..=X and resetting the index register to I, then loading (`0xFX65`)
restores the original values of registers 0..=X exactly. -/
theorem C7_store_load_roundtrip (c : Chip8) (i : Instruction)
    (hf : i.first = 0xF) (hX : i.x < 16)
    (hvalid : c.index_register + i.x ≤ 0x0FFF) :
    (i.nn = 0x55 → c.execute i = Except.ok (c.store_registers i.x)) ∧
    (i.nn = 0x65 → c.execute i = Except.ok (c.load_registers i.x)) ∧
    (∀ r, r ≤ i.x →
      (({ (c.store_registers i.x) with
          registers := c.registers.zeroThrough i.x
          index_register := c.index_register }).load_registers i.x).registers.get_value r =
        c.registers.get_value r) := by
  refine ⟨fun hn => execute_store_registers c i hf hn,
    fun hn => execute_load_registers c i hf hn, ?_⟩
  intro r hr
  rw [load_registers_registers]
  have hmem : ({ (c.store_registers i.x) with
      registers := c.registers.zeroThrough i.x
      index_register := c.index_register } : Chip8).memory =
      (List.range (i.x + 1)).foldl
        (fun m register => m.set_u8 (c.index_register + register)
          (c.registers.get_value register)) c.memory := store_registers_memory c i.x
  rw [load_foldl_get _ _ _ _ r (by simp [List.mem_range]; omega)]
  show ({ (c.store_registers i.x) with
      registers := c.registers.zeroThrough i.x
      index_register := c.index_register } : Chip8).memory.get_u8 (c.index_register + r) = _
  rw [hmem]
  exact store_foldl_get c.registers c.index_register _ c.memory r
    (by simp [List.mem_range]; omega)

theorem C7_witness :
    (Instruction.mk 0xF355).first = 0xF ∧ (Instruction.mk 0xF355).x < 16 ∧
    roundChip8.index_register + (Instruction.mk 0xF355).x ≤ 0x0FFF ∧
    (({ (roundChip8.store_registers (Instruction.mk 0xF355).x) with
        registers := roundChip8.registers.zeroThrough (Instruction.mk 0xF355).x
        index_register := roundChip8.index_register }).load_registers
        (Instruction.mk 0xF355).x).registers.get_value 3 = 44 :=
  ⟨by decide, by decide, by decide,
    (C7_store_load_roundtrip roundChip8 (Instruction.mk 0xF355) (by decide) (by decide)
      (by decide)).2.2 3 (by decide)⟩
